import Mathlib

/-!
Verification of `dimers/make_dimer_from_monomers.py` (COSY_Inter_Nano).

The script is a batch generator: it lists `.xyz` files in the working-directory
names `molecules` and `clusters`, and for each (molecule, cluster) pair calls
`make_dimer_xyz` twice, with the hard-coded configurations
(distance=4.0, angle=0.0, axis=[1,0,0]) and (distance=4.0, angle=90.0, axis=[0,0,1]).
`make_dimer_xyz` reads the two structures from `../molecules/<file>` and
`../clusters/<file>`, centers both at their centers of mass, rotates the cluster
about the given axis by the given angle, translates the cluster by `distance`
along z, concatenates molecule-then-cluster, and writes an xyz file whose name
and comment are derived from the job parameters.

The geometric and I/O primitives (`ase.Atoms` translate/rotate/add,
`ase.io.read`/`write`, center of mass) are external library code, not part of
this repository; they are modelled from the spec, which defines them as the
standard rigid-body operations.  Exact rational arithmetic stands in for the
floating-point arithmetic of the original; an angle is embedded together with
its exact cosine/sine pair (the two presets 0 deg and 90 deg have exact values
(1,0) and (0,1)).
-/

/-- A 3D vector with exact rational coordinates. -/
@[ext]
structure V3 where
  x : ℚ
  y : ℚ
  z : ℚ
  deriving DecidableEq, Repr

instance : Zero V3 := ⟨⟨0, 0, 0⟩⟩

instance : Add V3 := ⟨fun a b => ⟨a.x + b.x, a.y + b.y, a.z + b.z⟩⟩

instance : Neg V3 := ⟨fun a => ⟨-a.x, -a.y, -a.z⟩⟩

instance : SMul ℚ V3 := ⟨fun c a => ⟨c * a.x, c * a.y, c * a.z⟩⟩

/-- Dot product of two 3D vectors. -/
def V3.dot (a b : V3) : ℚ := a.x * b.x + a.y * b.y + a.z * b.z

/-- Cross product of two 3D vectors (right-handed). -/
def V3.cross (a b : V3) : V3 :=
  ⟨a.y * b.z - a.z * b.y, a.z * b.x - a.x * b.z, a.x * b.y - a.y * b.x⟩

/-- An atom: an element symbol and a position. -/
structure Atom where
  symbol : String
  pos : V3
  deriving DecidableEq, Repr

/-- A molecular structure: an ordered sequence of atoms
(the `ase.Atoms` object as described by the spec's data model). -/
structure Atoms where
  atoms : List Atom
  deriving DecidableEq, Repr

/-- Modelled from the spec: a rotation angle as used by the rotation primitive
(`ase.Atoms.rotate` takes the angle in degrees and evaluates its cosine and
sine).  The angle is embedded as its value in degrees together with the exact
cosine/sine pair; the presets 0 and 90 degrees have the exact pairs (1, 0)
and (0, 1). -/
structure RotAngle where
  deg : ℚ
  c : ℚ
  s : ℚ
  deriving DecidableEq, Repr

/-- Modelled from the spec: rotation of a point about the origin, by the angle
with cosine `c` and sine `s`, about the unit axis `k`, following the
right-hand rule (Rodrigues rotation formula, as used by `ase.Atoms.rotate`;
normalization of the axis is performed by that primitive, and both axes this
program passes are already unit vectors). -/
def rotatePoint (k : V3) (c s : ℚ) (p : V3) : V3 :=
  (c • p) + (s • V3.cross k p) + (((1 - c) * V3.dot k p) • k)

/-- Modelled from the spec: in-place translation of every atom by `v`
(`ase.Atoms.translate`). -/
def Atoms.translate (st : Atoms) (v : V3) : Atoms :=
  ⟨st.atoms.map fun a => ⟨a.symbol, a.pos + v⟩⟩

/-- Modelled from the spec: in-place rotation of every atom about the origin
(`ase.Atoms.rotate(axis, angle)`; the default rotation center is the origin). -/
def Atoms.rotate (st : Atoms) (k : V3) (ang : RotAngle) : Atoms :=
  ⟨st.atoms.map fun a => ⟨a.symbol, rotatePoint k ang.c ang.s a.pos⟩⟩

/-- Mass-weighted sum of the atom positions, given the element-mass table. -/
def wsum (massOf : String → ℚ) : List Atom → V3
  | [] => 0
  | a :: t => massOf a.symbol • a.pos + wsum massOf t

/-- Total mass of a list of atoms, given the element-mass table. -/
def totalMassL (massOf : String → ℚ) : List Atom → ℚ
  | [] => 0
  | a :: t => massOf a.symbol + totalMassL massOf t

/-- Total mass of a structure. -/
def Atoms.totalMass (massOf : String → ℚ) (st : Atoms) : ℚ :=
  totalMassL massOf st.atoms

/-- Modelled from the spec: center of mass, the mass-weighted average position
of all atoms (`ase.Atoms.get_center_of_mass`), given the element-mass table. -/
def Atoms.get_center_of_mass (massOf : String → ℚ) (st : Atoms) : V3 :=
  (1 / st.totalMass massOf) • wsum massOf st.atoms

/-- Modelled from the spec: concatenation of two structures (`ase.Atoms.__add__`):
the result sequence is the first operand's atoms followed by the second's,
order-preserving, with no deduplication. -/
instance : Add Atoms := ⟨fun a b => ⟨a.atoms ++ b.atoms⟩⟩

/-- An xyz coordinate file: an atom-count line, a comment line, and one line
per atom. -/
structure XyzFile where
  natoms : ℕ
  comment : String
  fileAtoms : List Atom
  deriving DecidableEq, Repr

/-- Modelled from the spec: `ase.io.write` for the xyz format writes the atom
count, the given comment line, and one line per atom in sequence order. -/
def xyzWrite (st : Atoms) (comment : String) : XyzFile :=
  ⟨st.atoms.length, comment, st.atoms⟩

/-- Modelled from the spec: `ase.io.read` for the xyz format yields the atom
sequence recorded in the file. -/
def xyzRead (f : XyzFile) : Atoms := ⟨f.fileAtoms⟩

/-- Python `str.endswith(suffix)`: the suffix test used by the loop's filter
(lines 71 and 73 of the source). -/
def pyEndsWith (s suffix : String) : Bool :=
  suffix.data.isSuffixOf s.data

/-- The filesystem as seen by the script: directory listing
(`os.listdir`) and structure reading (`ase.io.read`, which may fail on a
missing or malformed file; failures are uncaught exceptions, embedded as
`Except`). -/
structure FileSystem where
  listdir : String → List String
  readAtoms : String → Except String Atoms

/-- `os.path.splitext(name)[0]` for a plain file name (no directory
separators): everything before the last dot, unless the name has no dot or
consists of leading dots only. -/
def splitextRoot (name : String) : String :=
  let cs := name.toList
  match ((List.range cs.length).filter fun i => cs.getD i ' ' = '.').getLast? with
  | none => name
  | some i => if (cs.take i).all (fun ch => ch = '.') then name else ⟨cs.take i⟩

/-- Python repr of a float, for the integral-valued float literals this program
formats (repr of a float with exact integral value n, |n| small, is "n.0"). -/
def pyFloatRepr (q : ℚ) : String :=
  if q.den = 1 then toString q.num ++ ".0" else toString q

/-- Python repr of a list of ints, as interpolated into the comment string. -/
def pyIntListRepr (l : List ℤ) : String :=
  "[" ++ String.intercalate ", " (l.map toString) ++ "]"

/-- The axis argument (a Python list of ints in this program) as a vector. -/
def axisToV3 : List ℤ → V3
  | [a, b, c] => ⟨(a : ℚ), (b : ℚ), (c : ℚ)⟩
  | _ => 0

/-- The output file name built by `make_dimer_xyz` (line 58 of the source):
a deterministic function of the two base names, the distance and the angle. -/
def output_filename (molecule_file cluster_file : String) (distance angleDeg : ℚ) :
    String :=
  splitextRoot molecule_file ++ "_" ++ splitextRoot cluster_file ++ "_D" ++
    pyFloatRepr distance ++ "_A" ++ pyFloatRepr angleDeg ++ ".xyz"

/-- The comment line built by `make_dimer_xyz` (line 59 of the source). -/
def dimerComment (molecule_file cluster_file : String) (distance angleDeg : ℚ)
    (axis : List ℤ) : String :=
  splitextRoot molecule_file ++ " + " ++ splitextRoot cluster_file ++
    ": Distance = " ++ pyFloatRepr distance ++ ", Angle = " ++
    pyFloatRepr angleDeg ++ ", Axis = " ++ pyIntListRepr axis

/-- `make_dimer_xyz` (lines 24-63 of the source): read the molecule from
`../molecules/<molecule_file>` and the cluster from `../clusters/<cluster_file>`,
translate each by minus its center of mass, rotate the cluster about `axis` by
`angle`, translate the cluster by `distance` along z, concatenate molecule and
cluster, and write the result under the derived file name with the derived
comment.  Read failures propagate (no handler in the source). -/
def make_dimer_xyz (massOf : String → ℚ) (fs : FileSystem)
    (molecule_file cluster_file : String) (distance : ℚ) (angle : RotAngle)
    (axis : List ℤ) : Except String (String × XyzFile) := do
  let molecule ← fs.readAtoms ("../molecules/" ++ molecule_file)
  let cluster ← fs.readAtoms ("../clusters/" ++ cluster_file)
  let molecule := molecule.translate (-(molecule.get_center_of_mass massOf))
  let cluster := cluster.translate (-(cluster.get_center_of_mass massOf))
  let cluster := cluster.rotate (axisToV3 axis) angle
  let cluster := cluster.translate ⟨0, 0, distance⟩
  let dimer := molecule + cluster
  pure (output_filename molecule_file cluster_file distance angle.deg,
    xyzWrite dimer (dimerComment molecule_file cluster_file distance angle.deg axis))

/-- `molecules_dir` (line 66 of the source). -/
def molecules_dir : String := "molecules"

/-- `clusters_dir` (line 67 of the source). -/
def clusters_dir : String := "clusters"

/-- One iteration's parameters: the five values that determine a combination
job (spec: "Combination Job"). -/
structure Job where
  molecule_file : String
  cluster_file : String
  distance : ℚ
  angle : RotAngle
  axis : List ℤ
  deriving DecidableEq, Repr

/-- The two hard-coded calls the inner loop body makes for a pair
(lines 75-76 of the source): distance 4.0, angle 0.0, axis [1,0,0], and
distance 4.0, angle 90.0, axis [0,0,1]. -/
def presetJobs (molecule_file cluster_file : String) : List Job :=
  [⟨molecule_file, cluster_file, 4, ⟨0, 1, 0⟩, [1, 0, 0]⟩,
   ⟨molecule_file, cluster_file, 4, ⟨90, 0, 1⟩, [0, 0, 1]⟩]

/-- The jobs the module-level double loop runs (lines 70-76 of the source):
for each listed molecule file ending in ".xyz", for each listed cluster file
ending in ".xyz", the two preset jobs in order. -/
def mainJobs (fs : FileSystem) : List Job :=
  ((fs.listdir molecules_dir).filter fun f => pyEndsWith f ".xyz").flatMap fun m =>
    ((fs.listdir clusters_dir).filter fun f => pyEndsWith f ".xyz").flatMap fun c =>
      presetJobs m c

/-- Run a single job through `make_dimer_xyz`. -/
def runJob (massOf : String → ℚ) (fs : FileSystem) (j : Job) :
    Except String (String × XyzFile) :=
  make_dimer_xyz massOf fs j.molecule_file j.cluster_file j.distance j.angle j.axis

/-- Run a list of jobs in order, as the script's sequential loop does: each
success appends its written output file; the first uncaught failure stops the
whole run, leaving the outputs written so far in place and the remaining jobs
unexecuted. -/
def runJobs (massOf : String → ℚ) (fs : FileSystem) :
    List Job → List (String × XyzFile) × Option String
  | [] => ([], none)
  | j :: rest =>
    match runJob massOf fs j with
    | .error e => ([], some e)
    | .ok out =>
      let r := runJobs massOf fs rest
      (out :: r.1, r.2)

/-- The whole script: run every job of the double loop in order. -/
def runBatch (massOf : String → ℚ) (fs : FileSystem) :
    List (String × XyzFile) × Option String :=
  runJobs massOf fs (mainJobs fs)

/-! ### Concrete fixtures (used by the closed instantiations) -/

/-- A concrete mass table: every element has mass 1. -/
def exMass : String → ℚ := fun _ => 1

/-- A concrete three-atom molecule (a water-like structure). -/
def water : Atoms := ⟨[⟨"O", ⟨0, 0, 0⟩⟩, ⟨"H", ⟨2, 0, 0⟩⟩, ⟨"H", ⟨0, 2, 0⟩⟩]⟩

/-- A concrete two-atom cluster (an argon dimer). -/
def ar2 : Atoms := ⟨[⟨"Ar", ⟨0, 0, 1⟩⟩, ⟨"Ar", ⟨0, 0, -1⟩⟩]⟩

/-- A concrete filesystem: one molecule file, one cluster file, one stray
non-xyz file, and nothing else. -/
def exFS : FileSystem where
  listdir d :=
    if d = "molecules" then ["water.xyz"]
    else if d = "clusters" then ["Ar2.xyz", "notes.txt"]
    else []
  readAtoms p :=
    if p = "../molecules/water.xyz" then .ok water
    else if p = "../clusters/Ar2.xyz" then .ok ar2
    else .error "No such file"

/-- A filesystem agreeing with `exFS` on the two paths the pair
(water.xyz, Ar2.xyz) reads, and differing everywhere else. -/
def exFS2 : FileSystem where
  listdir d :=
    if d = "molecules" then ["water.xyz"]
    else if d = "clusters" then ["Ar2.xyz", "notes.txt"]
    else ["junk"]
  readAtoms p :=
    if p = "../molecules/water.xyz" then .ok water
    else if p = "../clusters/Ar2.xyz" then .ok ar2
    else .ok water

/-- A filesystem whose `molecules` directory is empty. -/
def exFSEmpty : FileSystem where
  listdir _ := []
  readAtoms _ := .error "No such file"

/-- A job both of whose input files exist on `exFS`. -/
def goodJob : Job := ⟨"water.xyz", "Ar2.xyz", 4, ⟨0, 1, 0⟩, [1, 0, 0]⟩

/-- A job whose molecule file does not exist on `exFS`. -/
def badJob : Job := ⟨"ghost.xyz", "Ar2.xyz", 4, ⟨0, 1, 0⟩, [1, 0, 0]⟩

/-! ### Component lemmas for `V3` -/

@[simp] theorem V3.zero_x : (0 : V3).x = 0 := rfl

@[simp] theorem V3.zero_y : (0 : V3).y = 0 := rfl

@[simp] theorem V3.zero_z : (0 : V3).z = 0 := rfl

@[simp] theorem V3.add_x (a b : V3) : (a + b).x = a.x + b.x := rfl

@[simp] theorem V3.add_y (a b : V3) : (a + b).y = a.y + b.y := rfl

@[simp] theorem V3.add_z (a b : V3) : (a + b).z = a.z + b.z := rfl

@[simp] theorem V3.neg_x (a : V3) : (-a).x = -a.x := rfl

@[simp] theorem V3.neg_y (a : V3) : (-a).y = -a.y := rfl

@[simp] theorem V3.neg_z (a : V3) : (-a).z = -a.z := rfl

@[simp] theorem V3.smul_x (c : ℚ) (a : V3) : (c • a).x = c * a.x := rfl

@[simp] theorem V3.smul_y (c : ℚ) (a : V3) : (c • a).y = c * a.y := rfl

@[simp] theorem V3.smul_z (c : ℚ) (a : V3) : (c • a).z = c * a.z := rfl

/-! ### Linearity of the rotation primitive -/

theorem rotatePoint_add (k : V3) (c s : ℚ) (p q : V3) :
    rotatePoint k c s (p + q) = rotatePoint k c s p + rotatePoint k c s q := by
  ext <;> simp [rotatePoint, V3.cross, V3.dot] <;> ring

theorem rotatePoint_smul (k : V3) (c s m : ℚ) (p : V3) :
    rotatePoint k c s (m • p) = m • rotatePoint k c s p := by
  ext <;> simp [rotatePoint, V3.cross, V3.dot] <;> ring

theorem rotatePoint_zero (k : V3) (c s : ℚ) :
    rotatePoint k c s 0 = 0 := by
  ext <;> simp [rotatePoint, V3.cross, V3.dot]

/-! ### Mass-weighted sums under the structure operations -/

theorem totalMassL_map_symbol (massOf : String → ℚ) (f : Atom → V3)
    (l : List Atom) :
    totalMassL massOf (l.map fun a => ⟨a.symbol, f a⟩) = totalMassL massOf l := by
  induction l with
  | nil => rfl
  | cons a t ih => simp [totalMassL, ih]

theorem wsum_translate (massOf : String → ℚ) (v : V3) (l : List Atom) :
    wsum massOf (l.map fun a => ⟨a.symbol, a.pos + v⟩) =
      wsum massOf l + totalMassL massOf l • v := by
  induction l with
  | nil => ext <;> simp [wsum, totalMassL]
  | cons a t ih =>
      ext <;> simp [wsum, totalMassL, ih] <;> ring

theorem wsum_rotate (massOf : String → ℚ) (k : V3) (c s : ℚ) (l : List Atom) :
    wsum massOf (l.map fun a => ⟨a.symbol, rotatePoint k c s a.pos⟩) =
      rotatePoint k c s (wsum massOf l) := by
  induction l with
  | nil => simp [wsum, rotatePoint_zero]
  | cons a t ih =>
      simp [wsum, ih, rotatePoint_add, rotatePoint_smul]

/-! ### Center of mass under the structure operations -/

theorem totalMass_translate (massOf : String → ℚ) (st : Atoms) (v : V3) :
    (st.translate v).totalMass massOf = st.totalMass massOf := by
  simp [Atoms.translate, Atoms.totalMass, totalMassL_map_symbol]

theorem totalMass_rotate (massOf : String → ℚ) (st : Atoms) (k : V3)
    (ang : RotAngle) :
    (st.rotate k ang).totalMass massOf = st.totalMass massOf := by
  simp [Atoms.rotate, Atoms.totalMass, totalMassL_map_symbol]

theorem com_translate (massOf : String → ℚ) (st : Atoms) (v : V3)
    (h : st.totalMass massOf ≠ 0) :
    (st.translate v).get_center_of_mass massOf =
      st.get_center_of_mass massOf + v := by
  have hM : totalMassL massOf st.atoms ≠ 0 := h
  ext <;>
    simp [Atoms.get_center_of_mass, totalMass_translate, Atoms.totalMass,
      Atoms.translate, wsum_translate, totalMassL_map_symbol] <;>
    field_simp <;> ring

theorem com_rotate (massOf : String → ℚ) (st : Atoms) (k : V3) (ang : RotAngle) :
    (st.rotate k ang).get_center_of_mass massOf =
      rotatePoint k ang.c ang.s (st.get_center_of_mass massOf) := by
  simp [Atoms.get_center_of_mass, totalMass_rotate, Atoms.totalMass,
    Atoms.rotate, wsum_rotate, totalMassL_map_symbol, rotatePoint_smul]

theorem com_center (massOf : String → ℚ) (st : Atoms)
    (h : st.totalMass massOf ≠ 0) :
    (st.translate (-(st.get_center_of_mass massOf))).get_center_of_mass massOf
      = 0 := by
  rw [com_translate massOf st _ h]
  ext <;> simp

/-! ### The shape of a successful job -/

theorem make_dimer_ok (massOf : String → ℚ) (fs : FileSystem)
    (mf cf : String) (d : ℚ) (ang : RotAngle) (ax : List ℤ) (M C : Atoms)
    (hM : fs.readAtoms ("../molecules/" ++ mf) = .ok M)
    (hC : fs.readAtoms ("../clusters/" ++ cf) = .ok C) :
    make_dimer_xyz massOf fs mf cf d ang ax =
      .ok (output_filename mf cf d ang.deg,
        xyzWrite
          ((M.translate (-(M.get_center_of_mass massOf))) +
            (((C.translate (-(C.get_center_of_mass massOf))).rotate
              (axisToV3 ax) ang).translate ⟨0, 0, d⟩))
          (dimerComment mf cf d ang.deg ax)) := by
  simp [make_dimer_xyz, hM, hC, bind, Except.bind, pure, Except.pure]

theorem runJob_ok_name (massOf : String → ℚ) (fs : FileSystem) (j : Job)
    (o : String × XyzFile) (h : runJob massOf fs j = .ok o) :
    o.1 = output_filename j.molecule_file j.cluster_file j.distance j.angle.deg := by
  rcases hM : fs.readAtoms ("../molecules/" ++ j.molecule_file) with e | M
  · simp [runJob, make_dimer_xyz, hM, bind, Except.bind] at h
  · rcases hC : fs.readAtoms ("../clusters/" ++ j.cluster_file) with e | C
    · simp [runJob, make_dimer_xyz, hM, hC, bind, Except.bind] at h
    · rw [runJob, make_dimer_ok massOf fs _ _ _ _ _ M C hM hC] at h
      cases h
      rfl

theorem runJobs_all_ok (massOf : String → ℚ) (fs : FileSystem) (js : List Job)
    (h : ∀ j ∈ js, ∃ o, runJob massOf fs j = .ok o) :
    (runJobs massOf fs js).2 = none ∧
      (runJobs massOf fs js).1.map Prod.fst =
        js.map fun j =>
          output_filename j.molecule_file j.cluster_file j.distance j.angle.deg := by
  induction js with
  | nil => exact ⟨rfl, rfl⟩
  | cons j t ih =>
      obtain ⟨o, ho⟩ := h j (List.mem_cons_self j t)
      have iht := ih fun j' hj' => h j' (List.mem_cons_of_mem j hj')
      constructor
      · simp [runJobs, ho, iht.1]
      · simp [runJobs, ho, iht.2, runJob_ok_name massOf fs j o ho]

/-! ### Small structural simp lemmas -/

@[simp] theorem Atoms.add_atoms_def (a b : Atoms) : (a + b).atoms = a.atoms ++ b.atoms := rfl

@[simp] theorem Atoms.translate_atoms (st : Atoms) (v : V3) :
    (st.translate v).atoms = st.atoms.map fun a => ⟨a.symbol, a.pos + v⟩ := rfl

@[simp] theorem Atoms.rotate_atoms (st : Atoms) (k : V3) (ang : RotAngle) :
    (st.rotate k ang).atoms =
      st.atoms.map fun a => ⟨a.symbol, rotatePoint k ang.c ang.s a.pos⟩ := rfl

theorem rotatePoint_angle_zero (k p : V3) : rotatePoint k 1 0 p = p := by
  ext <;> simp [rotatePoint, V3.cross, V3.dot]

/-! ### Claims C6, C7, C10: centering and offset of the center of mass -/

/-- C6: for every job of the generator (monomer M read from `../molecules`,
cluster C read from `../clusters`), after steps 1-2 of the Geometry Combiner
(the two centering translations, before the cluster is rotated and displaced)
the center of mass of the monomer and the center of mass of the cluster are
both exactly the origin, in the exact arithmetic of the model (given that the
total masses are nonzero, as they are for physical mass tables). -/
theorem claim_C6_centering (massOf : String → ℚ) (fs : FileSystem)
    (mf cf : String) (M C : Atoms)
    (hM : fs.readAtoms ("../molecules/" ++ mf) = .ok M)
    (hC : fs.readAtoms ("../clusters/" ++ cf) = .ok C)
    (hMm : M.totalMass massOf ≠ 0) (hCm : C.totalMass massOf ≠ 0) :
    (M.translate (-(M.get_center_of_mass massOf))).get_center_of_mass massOf = 0 ∧
    (C.translate (-(C.get_center_of_mass massOf))).get_center_of_mass massOf = 0 :=
  ⟨com_center massOf M hMm, com_center massOf C hCm⟩

/-- Closed instantiation of C6 on concrete structures. -/
theorem claim_C6_centering_witness :
    (water.translate (-(water.get_center_of_mass exMass))).get_center_of_mass
        exMass = 0 ∧
    (ar2.translate (-(ar2.get_center_of_mass exMass))).get_center_of_mass
        exMass = 0 :=
  claim_C6_centering exMass exFS "water.xyz" "Ar2.xyz" water ar2 rfl rfl
    (by norm_num [Atoms.totalMass, totalMassL, water, exMass])
    (by norm_num [Atoms.totalMass, totalMassL, ar2, exMass])

/-- C7: for every job whose rotation does not alter the z-coordinate of the
centered cluster's center of mass (in particular the angle=0 preset), the
cluster's center of mass after the combiner's transforms (center, rotate,
offset by `distance` along z) is exactly (0, 0, distance). -/
theorem claim_C7_offset (massOf : String → ℚ) (fs : FileSystem)
    (mf cf : String) (d : ℚ) (ang : RotAngle) (ax : List ℤ) (M C : Atoms)
    (hM : fs.readAtoms ("../molecules/" ++ mf) = .ok M)
    (hC : fs.readAtoms ("../clusters/" ++ cf) = .ok C)
    (hCm : C.totalMass massOf ≠ 0)
    (hz : (rotatePoint (axisToV3 ax) ang.c ang.s
        ((C.translate (-(C.get_center_of_mass massOf))).get_center_of_mass
          massOf)).z =
      ((C.translate (-(C.get_center_of_mass massOf))).get_center_of_mass
        massOf).z) :
    (((C.translate (-(C.get_center_of_mass massOf))).rotate (axisToV3 ax)
        ang).translate ⟨0, 0, d⟩).get_center_of_mass massOf = ⟨0, 0, d⟩ := by
  have h0 : (C.translate (-(C.get_center_of_mass massOf))).get_center_of_mass
      massOf = 0 := com_center massOf C hCm
  have hm2 : (((C.translate (-(C.get_center_of_mass massOf))).rotate (axisToV3 ax)
      ang)).totalMass massOf ≠ 0 := by
    rw [totalMass_rotate, totalMass_translate]
    exact hCm
  rw [com_translate _ _ _ hm2, com_rotate, h0, rotatePoint_zero]
  ext <;> simp

/-- Closed instantiation of C7 at the angle=0 preset. -/
theorem claim_C7_offset_witness :
    (((ar2.translate (-(ar2.get_center_of_mass exMass))).rotate
        (axisToV3 [1, 0, 0]) ⟨0, 1, 0⟩).translate ⟨0, 0, 4⟩).get_center_of_mass
      exMass = ⟨0, 0, 4⟩ :=
  claim_C7_offset exMass exFS "water.xyz" "Ar2.xyz" 4 ⟨0, 1, 0⟩ [1, 0, 0]
    water ar2 rfl rfl
    (by norm_num [Atoms.totalMass, totalMassL, ar2, exMass])
    (by rw [rotatePoint_angle_zero])

/-- C10 (implicit): for every job, regardless of the angle and axis, the
cluster's center of mass after the combiner's transforms is exactly
(0, 0, distance): the rotation is applied about the origin, which is the
centered cluster's center of mass and hence a fixed point of the (linear)
rotation.  In particular this holds for the angle=90, axis=(0,0,1) preset. -/
theorem claim_C10_offset_any_rotation (massOf : String → ℚ) (fs : FileSystem)
    (mf cf : String) (d : ℚ) (ang : RotAngle) (ax : List ℤ) (M C : Atoms)
    (hM : fs.readAtoms ("../molecules/" ++ mf) = .ok M)
    (hC : fs.readAtoms ("../clusters/" ++ cf) = .ok C)
    (hCm : C.totalMass massOf ≠ 0) :
    (((C.translate (-(C.get_center_of_mass massOf))).rotate (axisToV3 ax)
        ang).translate ⟨0, 0, d⟩).get_center_of_mass massOf = ⟨0, 0, d⟩ := by
  have h0 : (C.translate (-(C.get_center_of_mass massOf))).get_center_of_mass
      massOf = 0 := com_center massOf C hCm
  have hm2 : (((C.translate (-(C.get_center_of_mass massOf))).rotate (axisToV3 ax)
      ang)).totalMass massOf ≠ 0 := by
    rw [totalMass_rotate, totalMass_translate]
    exact hCm
  rw [com_translate _ _ _ hm2, com_rotate, h0, rotatePoint_zero]
  ext <;> simp

/-- Closed instantiation of C10 at the angle=90, axis=(0,0,1) preset. -/
theorem claim_C10_offset_any_rotation_witness :
    (((ar2.translate (-(ar2.get_center_of_mass exMass))).rotate
        (axisToV3 [0, 0, 1]) ⟨90, 0, 1⟩).translate ⟨0, 0, 4⟩).get_center_of_mass
      exMass = ⟨0, 0, 4⟩ :=
  claim_C10_offset_any_rotation exMass exFS "water.xyz" "Ar2.xyz" 4 ⟨90, 0, 1⟩
    [0, 0, 1] water ar2 rfl rfl
    (by norm_num [Atoms.totalMass, totalMassL, ar2, exMass])

/-! ### Claims C4, C5, C2: the combined structure -/

/-- C4: for every job on monomer M and cluster C, reading back the generated
output file yields a structure whose atom count equals
(atom count of M) + (atom count of C). -/
theorem claim_C4_roundtrip_count (massOf : String → ℚ) (fs : FileSystem)
    (mf cf : String) (d : ℚ) (ang : RotAngle) (ax : List ℤ) (M C : Atoms)
    (hM : fs.readAtoms ("../molecules/" ++ mf) = .ok M)
    (hC : fs.readAtoms ("../clusters/" ++ cf) = .ok C) :
    ∃ name file, make_dimer_xyz massOf fs mf cf d ang ax = .ok (name, file) ∧
      (xyzRead file).atoms.length = M.atoms.length + C.atoms.length := by
  refine ⟨_, _, make_dimer_ok massOf fs mf cf d ang ax M C hM hC, ?_⟩
  simp [xyzRead, xyzWrite]

/-- Closed instantiation of C4: 3 monomer atoms + 2 cluster atoms read back
as 5 atoms. -/
theorem claim_C4_roundtrip_count_witness :
    ((make_dimer_xyz exMass exFS "water.xyz" "Ar2.xyz" 4 ⟨0, 1, 0⟩
        [1, 0, 0]).map fun o => (xyzRead o.2).atoms.length) = .ok 5 := by
  obtain ⟨name, file, heq, hlen⟩ :=
    claim_C4_roundtrip_count exMass exFS "water.xyz" "Ar2.xyz" 4 ⟨0, 1, 0⟩
      [1, 0, 0] water ar2 rfl rfl
  rw [heq, Except.map]
  simpa [water, ar2] using hlen

/-- C5: for every job, the combined structure's atom sequence is exactly the
(transformed) monomer's atoms in their original order followed by the
(transformed) cluster's atoms in their original order; the element-symbol
sequence is the monomer's followed by the cluster's, and the length is the sum
of the two lengths (no deduplication, no overlap or collision check). -/
theorem claim_C5_concatenation (massOf : String → ℚ) (fs : FileSystem)
    (mf cf : String) (d : ℚ) (ang : RotAngle) (ax : List ℤ) (M C : Atoms)
    (hM : fs.readAtoms ("../molecules/" ++ mf) = .ok M)
    (hC : fs.readAtoms ("../clusters/" ++ cf) = .ok C) :
    ∃ name file, make_dimer_xyz massOf fs mf cf d ang ax = .ok (name, file) ∧
      file.fileAtoms =
        (M.translate (-(M.get_center_of_mass massOf))).atoms ++
          (((C.translate (-(C.get_center_of_mass massOf))).rotate (axisToV3 ax)
            ang).translate ⟨0, 0, d⟩).atoms ∧
      file.fileAtoms.map Atom.symbol =
        M.atoms.map Atom.symbol ++ C.atoms.map Atom.symbol ∧
      file.fileAtoms.length = M.atoms.length + C.atoms.length := by
  refine ⟨_, _, make_dimer_ok massOf fs mf cf d ang ax M C hM hC, rfl, ?_, ?_⟩
  · simp [xyzWrite, List.map_map, Function.comp_def]
  · simp [xyzWrite]

/-- Closed instantiation of C5: the symbol sequence of the output is the
monomer's symbols followed by the cluster's. -/
theorem claim_C5_concatenation_witness :
    ((make_dimer_xyz exMass exFS "water.xyz" "Ar2.xyz" 4 ⟨0, 1, 0⟩
        [1, 0, 0]).map fun o => o.2.fileAtoms.map Atom.symbol) =
      .ok ["O", "H", "H", "Ar", "Ar"] := by
  obtain ⟨name, file, heq, _, hsym, _⟩ :=
    claim_C5_concatenation exMass exFS "water.xyz" "Ar2.xyz" 4 ⟨0, 1, 0⟩
      [1, 0, 0] water ar2 rfl rfl
  rw [heq, Except.map]
  simpa [water, ar2] using hsym

/-- C2: in step 3 of the Geometry Combiner the cluster is rotated in place by
the job's angle about the job's axis while the monomer is never rotated: for
every job, the output's first block is the monomer's atoms moved by one common
translation only, and its second block is the cluster's atoms centered, then
rotated by the job's angle about the job's axis, then offset.  Moreover, the
rotation primitive follows the right-hand rule: rotating by +90 degrees about
the z-axis takes the +x direction to the +y direction, and rotating by +90
degrees about the x-axis takes the +y direction to the +z direction. -/
theorem claim_C2_rotation :
    (∀ (massOf : String → ℚ) (fs : FileSystem) (mf cf : String) (d : ℚ)
      (ang : RotAngle) (ax : List ℤ) (M C : Atoms),
      fs.readAtoms ("../molecules/" ++ mf) = .ok M →
      fs.readAtoms ("../clusters/" ++ cf) = .ok C →
      ∃ name file, make_dimer_xyz massOf fs mf cf d ang ax = .ok (name, file) ∧
        file.fileAtoms =
          (M.atoms.map fun a =>
            ⟨a.symbol, a.pos + -(M.get_center_of_mass massOf)⟩) ++
          (C.atoms.map fun a =>
            ⟨a.symbol, rotatePoint (axisToV3 ax) ang.c ang.s
              (a.pos + -(C.get_center_of_mass massOf)) + ⟨0, 0, d⟩⟩)) ∧
    rotatePoint ⟨0, 0, 1⟩ 0 1 ⟨1, 0, 0⟩ = ⟨0, 1, 0⟩ ∧
    rotatePoint ⟨1, 0, 0⟩ 0 1 ⟨0, 1, 0⟩ = ⟨0, 0, 1⟩ := by
  refine ⟨?_, ?_, ?_⟩
  · intro massOf fs mf cf d ang ax M C hM hC
    refine ⟨_, _, make_dimer_ok massOf fs mf cf d ang ax M C hM hC, ?_⟩
    simp [xyzWrite, List.map_map, Function.comp_def]
  · ext <;> norm_num [rotatePoint, V3.cross, V3.dot]
  · ext <;> norm_num [rotatePoint, V3.cross, V3.dot]

/-- Closed instantiation of C2 at the angle=90, axis=(0,0,1) preset: the
monomer block is translated only, the cluster block is rotated and offset. -/
theorem claim_C2_rotation_witness :
    ((make_dimer_xyz exMass exFS "water.xyz" "Ar2.xyz" 4 ⟨90, 0, 1⟩
        [0, 0, 1]).map fun o => o.2.fileAtoms) =
      .ok [⟨"O", ⟨-2/3, -2/3, 0⟩⟩, ⟨"H", ⟨4/3, -2/3, 0⟩⟩, ⟨"H", ⟨-2/3, 4/3, 0⟩⟩,
        ⟨"Ar", ⟨0, 0, 5⟩⟩, ⟨"Ar", ⟨0, 0, 3⟩⟩] := by
  obtain ⟨name, file, heq, hatoms⟩ :=
    claim_C2_rotation.1 exMass exFS "water.xyz" "Ar2.xyz" 4 ⟨90, 0, 1⟩
      [0, 0, 1] water ar2 rfl rfl
  rw [heq, Except.map, hatoms]
  norm_num [water, ar2, exMass, Atoms.get_center_of_mass, Atoms.totalMass,
    totalMassL, wsum, rotatePoint, V3.cross, V3.dot, axisToV3]
  repeat' apply And.intro
  all_goals (ext <;> norm_num)

/-! ### Claims C1, C3, C8, C9: the batch loop -/

/-- C1: for every pair of a molecule file and a cluster file accepted by the
enumeration, the generator invokes the Geometry Combiner exactly twice, once
with each hard-coded configuration (distance=4.0, angle=0.0, axis=[1,0,0])
and (distance=4.0, angle=90.0, axis=[0,0,1]); when all reads succeed it
produces exactly those two output files per pair, whose names are the
deterministic function `output_filename` of the job parameters. -/
theorem claim_C1_two_outputs_per_pair (massOf : String → ℚ) (fs : FileSystem)
    (h : ∀ j ∈ mainJobs fs, ∃ o, runJob massOf fs j = .ok o) :
    mainJobs fs =
      ((fs.listdir molecules_dir).filter fun f => pyEndsWith f ".xyz").flatMap
        (fun m =>
          ((fs.listdir clusters_dir).filter fun f => pyEndsWith f ".xyz").flatMap
            (fun c => [⟨m, c, 4, ⟨0, 1, 0⟩, [1, 0, 0]⟩,
              ⟨m, c, 4, ⟨90, 0, 1⟩, [0, 0, 1]⟩])) ∧
    (runBatch massOf fs).2 = none ∧
    (runBatch massOf fs).1.map Prod.fst =
      ((fs.listdir molecules_dir).filter fun f => pyEndsWith f ".xyz").flatMap
        (fun m =>
          ((fs.listdir clusters_dir).filter fun f => pyEndsWith f ".xyz").flatMap
            (fun c => [output_filename m c 4 0, output_filename m c 4 90])) := by
  refine ⟨rfl, (runJobs_all_ok massOf fs (mainJobs fs) h).1, ?_⟩
  have h2 := (runJobs_all_ok massOf fs (mainJobs fs) h).2
  rw [runBatch, h2, mainJobs, List.map_flatMap]
  refine List.flatMap_congr ?_
  intro m _
  rw [List.map_flatMap]
  refine List.flatMap_congr ?_
  intro c _
  rfl

/-- Closed instantiation of C1: on the concrete filesystem the run writes
exactly the two deterministically-named files for its single pair, with no
error. -/
theorem claim_C1_two_outputs_per_pair_witness :
    (runBatch exMass exFS).2 = none ∧
    (runBatch exMass exFS).1.map Prod.fst =
      ["water_Ar2_D4.0_A0.0.xyz", "water_Ar2_D4.0_A90.0.xyz"] := by
  have hall : ∀ j ∈ mainJobs exFS, ∃ o, runJob exMass exFS j = .ok o := by
    have hjobs : mainJobs exFS =
        [⟨"water.xyz", "Ar2.xyz", 4, ⟨0, 1, 0⟩, [1, 0, 0]⟩,
         ⟨"water.xyz", "Ar2.xyz", 4, ⟨90, 0, 1⟩, [0, 0, 1]⟩] := by decide
    intro j hj
    rw [hjobs] at hj
    simp only [List.mem_cons, List.not_mem_nil, or_false] at hj
    rcases hj with h | h <;> subst h <;> exact ⟨_, rfl⟩
  have h := claim_C1_two_outputs_per_pair exMass exFS hall
  exact ⟨h.2.1, h.2.2.trans (by decide)⟩

/-- C3: the generator lists input file names using the working-directory paths
"molecules" and "clusters", but every job reads the structures from
`../molecules/<file>` and `../clusters/<file>`: the enumerated jobs depend on
the filesystem only through the listings of "molecules" and "clusters", and a
job's outcome depends on it only through the reads of the two parent-directory
paths; the paths are fixed constants of the program. -/
theorem claim_C3_fixed_paths :
    molecules_dir = "molecules" ∧ clusters_dir = "clusters" ∧
    (∀ fs fs' : FileSystem,
      fs.listdir molecules_dir = fs'.listdir molecules_dir →
      fs.listdir clusters_dir = fs'.listdir clusters_dir →
      mainJobs fs = mainJobs fs') ∧
    (∀ (massOf : String → ℚ) (fs fs' : FileSystem) (j : Job),
      fs.readAtoms ("../molecules/" ++ j.molecule_file) =
        fs'.readAtoms ("../molecules/" ++ j.molecule_file) →
      fs.readAtoms ("../clusters/" ++ j.cluster_file) =
        fs'.readAtoms ("../clusters/" ++ j.cluster_file) →
      runJob massOf fs j = runJob massOf fs' j) := by
  refine ⟨rfl, rfl, ?_, ?_⟩
  · intro fs fs' h1 h2
    rw [mainJobs, mainJobs, h1, h2]
  · intro massOf fs fs' j h1 h2
    rw [runJob, runJob, make_dimer_xyz, make_dimer_xyz, h1, h2]

/-- Closed instantiation of C3: two filesystems that differ everywhere except
on the two read paths of the job give the same job outcome. -/
theorem claim_C3_fixed_paths_witness :
    runJob exMass exFS goodJob = runJob exMass exFS2 goodJob :=
  claim_C3_fixed_paths.2.2.2 exMass exFS exFS2 goodJob rfl rfl

/-- C8: no read, parse, or write failure is caught or retried: if the jobs
before some failing job all succeed and that job fails, the batch stops at the
failing job with its error, the outputs of the earlier jobs remain exactly in
place (no rollback), and the jobs after the failing one are never run. -/
theorem claim_C8_error_propagation (massOf : String → ℚ) (fs : FileSystem)
    (js1 : List Job) (j : Job) (js2 : List Job) (e : String)
    (h1 : ∀ j' ∈ js1, ∃ o, runJob massOf fs j' = .ok o)
    (h2 : runJob massOf fs j = .error e) :
    runJobs massOf fs (js1 ++ j :: js2) = ((runJobs massOf fs js1).1, some e) ∧
    (runJobs massOf fs js1).2 = none := by
  induction js1 with
  | nil => exact ⟨by simp [runJobs, h2], rfl⟩
  | cons a t ih =>
      obtain ⟨o, ho⟩ := h1 a (List.mem_cons_self a t)
      have iht := ih fun j' hj' => h1 j' (List.mem_cons_of_mem a hj')
      refine ⟨?_, by simp [runJobs, ho, iht.2]⟩
      simp only [List.cons_append, runJobs, ho, List.append_eq]
      rw [iht.1]

/-- Closed instantiation of C8: the run [good, bad, good] stops at the bad
job, keeps the good job's output, and never runs the third job. -/
theorem claim_C8_error_propagation_witness :
    runJobs exMass exFS [goodJob, badJob, goodJob] =
      ((runJobs exMass exFS [goodJob]).1, some "No such file") ∧
    (runJobs exMass exFS [goodJob]).2 = none := by
  have h := claim_C8_error_propagation exMass exFS [goodJob] badJob [goodJob]
    "No such file" ?_ rfl
  · exact h
  · intro j' hj'
    simp only [List.mem_cons, List.not_mem_nil, or_false] at hj'
    subst hj'
    exact ⟨_, rfl⟩

/-- C9: jobs are enumerated exactly for the pairs of directory entries ending
in ".xyz" in both directories; a file not ending in ".xyz" is never processed
(no job mentions it); and if the `molecules` directory is empty the run
produces zero output files and no error. -/
theorem claim_C9_enumeration_filter (massOf : String → ℚ) (fs : FileSystem) :
    (fs.listdir molecules_dir = [] → runBatch massOf fs = ([], none)) ∧
    (∀ j, j ∈ mainJobs fs ↔
      ∃ m ∈ fs.listdir molecules_dir, ∃ c ∈ fs.listdir clusters_dir,
        pyEndsWith m ".xyz" = true ∧ pyEndsWith c ".xyz" = true ∧
          j ∈ presetJobs m c) ∧
    (∀ f, pyEndsWith f ".xyz" = false →
      ∀ j ∈ mainJobs fs, j.molecule_file ≠ f ∧ j.cluster_file ≠ f) := by
  have hmem : ∀ j, j ∈ mainJobs fs ↔
      ∃ m ∈ fs.listdir molecules_dir, ∃ c ∈ fs.listdir clusters_dir,
        pyEndsWith m ".xyz" = true ∧ pyEndsWith c ".xyz" = true ∧
          j ∈ presetJobs m c := by
    intro j
    simp only [mainJobs, List.mem_flatMap, List.mem_filter]
    tauto
  refine ⟨?_, hmem, ?_⟩
  · intro h
    rw [runBatch, mainJobs, h]
    rfl
  · intro f hf j hj
    obtain ⟨m, _, c, _, hm, hc, hjp⟩ := (hmem j).mp hj
    have hfile : j.molecule_file = m ∧ j.cluster_file = c := by
      simp only [presetJobs, List.mem_cons, List.not_mem_nil, or_false] at hjp
      rcases hjp with h | h <;> subst h <;> exact ⟨rfl, rfl⟩
    constructor
    · rw [hfile.1]
      intro hmf
      rw [hmf, hf] at hm
      cases hm
    · rw [hfile.2]
      intro hcf
      rw [hcf, hf] at hc
      cases hc

/-- Closed instantiation of C9: an empty `molecules` directory produces zero
output files and no error. -/
theorem claim_C9_enumeration_filter_witness :
    runBatch exMass exFSEmpty = ([], none) :=
  (claim_C9_enumeration_filter exMass exFSEmpty).1 rfl
